import Mathlib

/-!
Verification development for the librtd return-time-distribution (RTD) engine
and its Python CLI wrappers.

The repository ships the CLI wrappers (`librtd/cli_wrapper.py`,
`librtd-py/librtd/librtd.py`) in Python; the computational core is a compiled
extension whose source is not part of this checkout, so the core is modelled
here from its specification (k-mer codec, sequence scanner, the return-time
extractors, the statistics aggregator and the orchestrator).  The CLI wrappers
are embedded directly from the Python source.

Floating-point statistics are modelled over ℚ: the record stores the population
variance, and the standard deviation is `Real.sqrt` of that value (stated at
the theorem level; every concrete standard deviation in the specification is
zero, where the two presentations agree exactly).
-/

namespace Librtd

/-- Modelled from the spec: the nucleotide alphabet {A, C, G, T}
(§3 "Nucleotide Sequence"); the core receives sequences already validated and
case-normalized by its collaborators (§6). -/
inductive Sym where
  | A : Sym
  | C : Sym
  | G : Sym
  | T : Sym
deriving DecidableEq, Repr

/-- Modelled from the spec: `encode_symbol(c) -> 2-bit code` (§4.1); the exact
code assignment is not pinned down by the spec, any bijection onto {0,1,2,3}
with complement pairs A↔T and G↔C works; we use the dense order A,C,G,T so that
the complement of a code `c` is `3 - c`. -/
def encode_symbol : Sym → Nat
  | .A => 0
  | .C => 1
  | .G => 2
  | .T => 3

/-- Modelled from the spec: inverse of `encode_symbol` on 2-bit codes (§4.1). -/
def decode_symbol (c : Nat) : Sym :=
  match c % 4 with
  | 0 => .A
  | 1 => .C
  | 2 => .G
  | _ => .T

/-- Modelled from the spec: A↔T, G↔C complement on symbols (§4.1, glossary). -/
def complement_symbol : Sym → Sym
  | .A => .T
  | .C => .G
  | .G => .C
  | .T => .A

/-- Modelled from the spec: `pack(symbols[0..k)) -> key`, left-to-right,
most-significant bits first, 2 bits per symbol (§4.1, §3 "K-mer Key"). -/
def pack (syms : List Sym) : Nat :=
  syms.foldl (fun acc s => 4 * acc + encode_symbol s) 0

/-- Modelled from the spec: `unpack(key, k) -> symbols`, exact inverse of
`pack` (§4.1); most-significant symbol first, so the last symbol comes from the
low 2 bits of the key. -/
def unpack (key : Nat) : Nat → List Sym
  | 0 => []
  | k + 1 => unpack (key / 4) k ++ [decode_symbol (key % 4)]

/-- Modelled from the spec: `reverse_complement(key, k) -> key` complements
each 2-bit code (A↔T, G↔C) and reverses symbol order (§4.1). -/
def reverse_complement (key k : Nat) : Nat :=
  pack (((unpack key k).map complement_symbol).reverse)

/-- Modelled from the spec: `enumerate_all(k)`, all `4^k` keys in ascending
numeric order (§4.1). -/
def enumerate_all (k : Nat) : List Nat :=
  List.range (4 ^ k)

/-- Modelled from the spec: the platform-dependent maximum k, `2k` bits must
fit the key width, "e.g. k ≤ 31 for a 64-bit key" (§3 "K-mer Key"). -/
def platformMaxK : Nat := 31

/-- Modelled from the spec: the packed k-mer starting at position `p`
(§4.2 sliding window; the incremental rolling update is a performance device
and computes the same value as re-packing the window). -/
def kmerAt (seq : List Sym) (p k : Nat) : Nat :=
  pack ((seq.drop p).take k)

/-- Modelled from the spec: the Occurrence Index lookup for one key — the
ascending list of start positions where that k-mer occurs, as discovered by a
single left-to-right scan (§3 "Occurrence Index", §4.2 `scan`).  Positions run
over `0 .. length - k`; a sequence shorter than `k` yields the empty list. -/
def occurrences (seq : List Sym) (k key : Nat) : List Nat :=
  (List.range (seq.length + 1 - k)).filter (fun p => kmerAt seq p k = key)

/-- Modelled from the spec: the Same-k-mer return-time extractor — the `m − 1`
consecutive differences over a key's own occurrence list (§4.3). -/
def sameKmerGaps (pos : List Nat) : List Nat :=
  List.zipWith (fun a b => b - a) pos pos.tail

/-- Modelled from the spec: the Pairwise return-time extractor for one ordered
pair — for each occurrence `p` of the first k-mer, the gap to the first (hence,
the lists being ascending, the nearest) following occurrence of the second
k-mer, absent when there is none (§4.3 merge-style scan). -/
def pairwiseGaps (as bs : List Nat) : List Nat :=
  as.filterMap (fun p => (bs.find? (fun q => p < q)).map (fun q => q - p))

/-- Modelled from the spec: the Statistics Record
(sample_count, mean, standard_deviation) (§3).  The standard deviation is
`Real.sqrt variance`; the record stores the population variance so that the
data stays in ℚ. -/
structure Statistics where
  sample_count : Nat
  mean : ℚ
  variance : ℚ
deriving DecidableEq, Repr

/-- Modelled from the spec: `summarize(gaps) -> Statistics Record` (§4.4).
count = length; mean = arithmetic mean, 0 for the empty sequence by convention;
variance = population variance (divide by count, not count − 1), whose square
root is the population standard deviation.  Total, no failure modes. -/
def summarize (gaps : List Nat) : Statistics :=
  match gaps.length with
  | 0 => ⟨0, 0, 0⟩
  | n + 1 =>
    let μ : ℚ := ((gaps.map (fun x => (x : ℚ))).sum) / (n + 1)
    ⟨n + 1, μ, ((gaps.map (fun x => ((x : ℚ) - μ) ^ 2)).sum) / (n + 1)⟩

/-- Modelled from the spec: the three return-time variants (§4.3, §4.5). -/
inductive Variant where
  | SameKmer : Variant
  | Pairwise : Variant
  | ReverseComplement : Variant
deriving DecidableEq, Repr

/-- Modelled from the spec: error kinds surfaced by the core (§7). -/
inductive RTDError where
  | InvalidK : RTDError
  | InvalidSymbol : RTDError
deriving DecidableEq, Repr

/-- Modelled from the spec: the RTD Result identifier — a single k-mer key for
SameKmer/ReverseComplement, an ordered pair of keys for Pairwise (§3). -/
inductive KmerId where
  | single : Nat → KmerId
  | pair : Nat → Nat → KmerId
deriving DecidableEq, Repr

/-- Modelled from the spec: the SameKmer result body — every key of
`enumerate_all k` in ascending order, each with the summarized same-k-mer
return times of its own occurrence list (§4.3, §4.5). -/
def sameKmerEntries (seq : List Sym) (k : Nat) : List (KmerId × Statistics) :=
  (enumerate_all k).map (fun key =>
    (KmerId.single key, summarize (sameKmerGaps (occurrences seq k key))))

/-- Modelled from the spec: the ReverseComplement result body — the pairwise
extractor restricted to the (k-mer, its reverse complement) diagonal (§4.3). -/
def reverseComplementEntries (seq : List Sym) (k : Nat) : List (KmerId × Statistics) :=
  (enumerate_all k).map (fun key =>
    (KmerId.single key,
      summarize (pairwiseGaps (occurrences seq k key)
        (occurrences seq k (reverse_complement key k)))))

/-- Modelled from the spec: the Pairwise result body — all `4^k × 4^k` ordered
pairs, diagonal included, in lexicographically ascending order (§4.3, §4.5). -/
def pairwiseEntries (seq : List Sym) (k : Nat) : List (KmerId × Statistics) :=
  (enumerate_all k).flatMap (fun a =>
    (enumerate_all k).map (fun b =>
      (KmerId.pair a b,
        summarize (pairwiseGaps (occurrences seq k a) (occurrences seq k b)))))

/-- Modelled from the spec: `compute(sequence, k, variant) -> RTD Result`
(§4.5): validate k (1 ≤ k ≤ platform max, else `InvalidK`, no partial result);
enumerate the key space in ascending numeric order; for each key (or ordered
pair) run the matching extractor over the occurrence index, then `summarize`;
every enumerated key appears exactly once, zero-occurrence k-mers included. -/
def compute (seq : List Sym) (k : Nat) (v : Variant) :
    Except RTDError (List (KmerId × Statistics)) :=
  if 1 ≤ k ∧ k ≤ platformMaxK then
    .ok (match v with
      | .SameKmer => sameKmerEntries seq k
      | .ReverseComplement => reverseComplementEntries seq k
      | .Pairwise => pairwiseEntries seq k)
  else .error .InvalidK

/-- The canonical identifier enumeration of an RTD Result, in the order
`compute` emits it (§4.5 ascending numeric key order). -/
def rtdIds (k : Nat) : Variant → List KmerId
  | .SameKmer => (enumerate_all k).map KmerId.single
  | .ReverseComplement => (enumerate_all k).map KmerId.single
  | .Pairwise => (enumerate_all k).flatMap (fun a => (enumerate_all k).map (KmerId.pair a))

/-- Ascending order on result identifiers: numeric on single keys,
lexicographic on ordered pairs. -/
def idAsc : KmerId → KmerId → Prop
  | .single a, .single b => a < b
  | .pair a b, .pair c d => a < c ∨ (a = c ∧ b < d)
  | _, _ => False

/-- Modelled from the spec: docopt classifies a command-line token as an
option when it starts with `-` (§6; the docopt library is an external
collaborator).  Stated over the character list so that it is kernel-computable. -/
def isOptionToken (t : String) : Bool :=
  match t.data with
  | '-' :: _ => true
  | _ => false

/-- The option tokens admitted by the usage pattern
`rtd <k> <input> [<output>] [--reverse-complement|--pairwise]` of
`src/librtd/cli_wrapper.py` (help/version handling is out of scope). -/
def isModeFlag (t : String) : Bool :=
  t = "-r" || t = "--reverse-complement" || t = "-p" || t = "--pairwise"

/-- Decimal digit value of a character, `none` for non-digits. -/
def charDigit? (c : Char) : Option Nat :=
  if c = '0' then some 0 else if c = '1' then some 1 else if c = '2' then some 2
  else if c = '3' then some 3 else if c = '4' then some 4 else if c = '5' then some 5
  else if c = '6' then some 6 else if c = '7' then some 7 else if c = '8' then some 8
  else if c = '9' then some 9 else none

/-- Value of a non-empty string of decimal digits, `none` otherwise. -/
def digitsToNat? : List Char → Option Nat
  | [] => none
  | cs => cs.foldl (fun acc c => match acc, charDigit? c with
      | some n, some d => some (10 * n + d)
      | _, _ => none) (some 0)

/-- Modelled from the spec: Python's `int(...)` conversion used by both CLI
wrappers on the `<k>` argument, restricted to optionally-signed decimal
literals; it fails (raises, modelled as `none`) on anything else. -/
def pyInt? (t : String) : Option Int :=
  match t.data with
  | '-' :: rest => (digitsToNat? rest).map (fun n => -(n : Int))
  | cs => (digitsToNat? cs).map (fun n => (n : Int))

/-- The argument dictionary docopt hands back for the usage pattern
`rtd <k> <input> [<output>] [--reverse-complement|--pairwise]`:
the `<k>` and `<input>` positionals, the optional `<output>` positional
(`none` when omitted), and one boolean per mode flag. -/
structure ParsedArgs where
  kArg : String
  inputArg : String
  outputArg : Option String
  reverseComplement : Bool
  pairwise : Bool
deriving DecidableEq, Repr

/-- Modelled from the spec: docopt parsing of the usage pattern shared by both
CLI wrappers (the docopt library is an external collaborator; §6).  Option
tokens must belong to the `[--reverse-complement|--pairwise]` group and the
group admits at most one of them; the positionals are `<k> <input> [<output>]`. -/
def docoptParse (tokens : List String) : Option ParsedArgs :=
  let opts := tokens.filter (fun t => isOptionToken t)
  let positionals := tokens.filter (fun t => !isOptionToken t)
  if opts.all isModeFlag then
    let rc := opts.any (fun t => t = "-r" || t = "--reverse-complement")
    let pw := opts.any (fun t => t = "-p" || t = "--pairwise")
    if rc && pw then none
    else
      match positionals with
      | [kA, inputA] => some ⟨kA, inputA, none, rc, pw⟩
      | [kA, inputA, outputA] => some ⟨kA, inputA, some outputA, rc, pw⟩
      | _ => none
  else none

/-- The call the wrapper makes into the core entry point `main`: positional
`k` and `input`, keyword `output`, `reverseComplement`, `pairwise`. -/
structure MainCall where
  k : Int
  input : String
  output : String
  reverseComplement : Bool
  pairwise : Bool
deriving DecidableEq, Repr

/-- Embedding of `cli_wrapper` from `src/librtd/cli_wrapper.py` (lines 24-33):
docopt-parse the tokens, default the omitted `<output>` to the literal string
"stdout", convert `<k>` with `int(...)`, and forward everything to `main`. -/
def cli_wrapper (tokens : List String) : Option MainCall :=
  (docoptParse tokens).bind (fun args =>
    (pyInt? args.kArg).map (fun kv =>
      ⟨kv, args.inputArg, args.outputArg.getD "stdout",
        args.reverseComplement, args.pairwise⟩))

/-- Embedding of `_cli_wrapper` from `src/librtd-py/librtd/librtd.py`
(lines 34-43); its body is identical to `cli_wrapper` apart from the version
string shown by `--version`. -/
def librtd_py_cli_wrapper (tokens : List String) : Option MainCall :=
  (docoptParse tokens).bind (fun args =>
    (pyInt? args.kArg).map (fun kv =>
      ⟨kv, args.inputArg, args.outputArg.getD "stdout",
        args.reverseComplement, args.pairwise⟩))

/-- The test sequence "ATGATGATG" (§8). -/
def seqATG : List Sym := [.A, .T, .G, .A, .T, .G, .A, .T, .G]

/-- The test sequence "ATAT" (§8). -/
def seqATAT : List Sym := [.A, .T, .A, .T]

/-- The test sequence "AAAA" (§8). -/
def seqAAAA : List Sym := [.A, .A, .A, .A]


/-! ### Codec lemmas -/

lemma encode_symbol_lt (s : Sym) : encode_symbol s < 4 := by
  cases s <;> decide

lemma decode_encode_symbol (s : Sym) : decode_symbol (encode_symbol s) = s := by
  cases s <;> rfl

lemma encode_decode_symbol (c : Nat) (h : c < 4) :
    encode_symbol (decode_symbol c) = c := by
  interval_cases c <;> rfl

lemma complement_symbol_involutive (s : Sym) :
    complement_symbol (complement_symbol s) = s := by
  cases s <;> rfl

lemma pack_append_singleton (l : List Sym) (s : Sym) :
    pack (l ++ [s]) = 4 * pack l + encode_symbol s := by
  simp [pack, List.foldl_append]

lemma pack_lt (l : List Sym) : pack l < 4 ^ l.length := by
  induction l using List.reverseRecOn with
  | nil => simp [pack]
  | append_singleton l s ih =>
    have hc := encode_symbol_lt s
    rw [pack_append_singleton, List.length_append]
    simp only [List.length_cons, List.length_nil, pow_succ]
    omega

lemma unpack_succ (key k : Nat) :
    unpack key (k + 1) = unpack (key / 4) k ++ [decode_symbol (key % 4)] := rfl

lemma unpack_length (key k : Nat) : (unpack key k).length = k := by
  induction k generalizing key with
  | zero => rfl
  | succ k ih => simp [unpack, ih]

lemma unpack_pack (l : List Sym) : unpack (pack l) l.length = l := by
  induction l using List.reverseRecOn with
  | nil => rfl
  | append_singleton l s ih =>
    have hc := encode_symbol_lt s
    rw [pack_append_singleton, List.length_append]
    simp only [List.length_cons, List.length_nil]
    rw [unpack_succ]
    have h1 : (4 * pack l + encode_symbol s) / 4 = pack l := by omega
    have h2 : (4 * pack l + encode_symbol s) % 4 = encode_symbol s := by omega
    rw [h1, h2, ih, decode_encode_symbol]

lemma unpack_pack_of_length (l : List Sym) (k : Nat) (h : l.length = k) :
    unpack (pack l) k = l := h ▸ unpack_pack l

lemma pack_unpack (key k : Nat) (h : key < 4 ^ k) : pack (unpack key k) = key := by
  induction k generalizing key with
  | zero =>
    simp only [pow_zero, Nat.lt_one_iff] at h
    subst h
    rfl
  | succ k ih =>
    rw [unpack_succ, pack_append_singleton]
    have hk4 : key / 4 < 4 ^ k := by
      rw [pow_succ] at h
      omega
    rw [ih _ hk4, encode_decode_symbol _ (Nat.mod_lt _ (by norm_num))]
    omega

/-! ### Claims about the codec -/

/-- C4: for every k in the valid range and every length-k symbol sequence over
{A,T,G,C}, `unpack (pack symbols) k = symbols`; `pack` is a left-to-right,
most-significant-bits-first encoding into `[0, 4^k)` and `unpack` is its exact
inverse. -/
theorem pack_unpack_roundtrip (k : Nat) (syms : List Sym)
    (h1 : 1 ≤ k) (h2 : k ≤ platformMaxK) (hlen : syms.length = k) :
    unpack (pack syms) k = syms ∧ pack syms < 4 ^ k := by
  subst hlen
  exact ⟨unpack_pack syms, pack_lt syms⟩

/-- Witness for C4 at k = 2, symbols = [A, T]. -/
theorem pack_unpack_roundtrip_witness :
    1 ≤ 2 ∧ 2 ≤ platformMaxK ∧ ([Sym.A, Sym.T].length = 2)
      ∧ (unpack (pack [Sym.A, Sym.T]) 2 = [Sym.A, Sym.T] ∧ pack [Sym.A, Sym.T] < 4 ^ 2) :=
  ⟨by decide, by decide, by decide,
    pack_unpack_roundtrip 2 [Sym.A, Sym.T] (by decide) (by decide) (by decide)⟩

/-- C5: for every valid k and every key in `[0, 4^k)`, `reverse_complement`
(complement each 2-bit symbol code A↔T, G↔C, and reverse symbol order) is an
involution. -/
theorem reverse_complement_involution (k key : Nat)
    (h1 : 1 ≤ k) (h2 : k ≤ platformMaxK) (hkey : key < 4 ^ k) :
    reverse_complement (reverse_complement key k) k = key := by
  unfold reverse_complement
  rw [unpack_pack_of_length _ _ (by simp [unpack_length])]
  rw [List.map_reverse, List.reverse_reverse, List.map_map]
  have hcc : complement_symbol ∘ complement_symbol = id :=
    funext complement_symbol_involutive
  rw [hcc, List.map_id]
  exact pack_unpack key k hkey

/-- Witness for C5 at k = 2, key = 9 (the k-mer "GC"). -/
theorem reverse_complement_involution_witness :
    1 ≤ 2 ∧ 2 ≤ platformMaxK ∧ 9 < 4 ^ 2
      ∧ reverse_complement (reverse_complement 9 2) 2 = 9 :=
  ⟨by decide, by decide, by decide,
    reverse_complement_involution 2 9 (by decide) (by decide) (by decide)⟩

/-! ### Same-k-mer extractor lemmas -/

lemma sameKmerGaps_nil : sameKmerGaps [] = [] := rfl

lemma sameKmerGaps_length (pos : List Nat) :
    (sameKmerGaps pos).length = pos.length - 1 := by
  cases pos with
  | nil => rfl
  | cons p rest => simp [sameKmerGaps, List.length_zipWith]

lemma sameKmerGaps_getD (pos : List Nat) :
    ∀ i : Nat, i + 1 < pos.length →
      (sameKmerGaps pos).getD i 0 = pos.getD (i + 1) 0 - pos.getD i 0 := by
  induction pos with
  | nil => intro i h; simp at h
  | cons p rest ih =>
    intro i h
    cases rest with
    | nil => simp at h
    | cons q rest' =>
      have hstep : sameKmerGaps (p :: q :: rest') = (q - p) :: sameKmerGaps (q :: rest') := rfl
      cases i with
      | zero => simp [hstep]
      | succ i' =>
        rw [hstep]
        simp only [List.getD_cons_succ]
        exact ih i' (by simpa using h)

/-- C1: for every sequence and k-mer key whose occurrence list has length m,
the same-k-mer extractor produces exactly the m − 1 consecutive differences
`pos[i+1] − pos[i]`, the empty sequence when m ≤ 1; for "ATGATGATG" with k = 3
the k-mer "ATG" occurs at 0, 3, 6, giving gaps [3, 3] with count 2, mean 3 and
standard deviation 0. -/
theorem sameKmer_return_times (seq : List Sym) (k key : Nat) :
    ((occurrences seq k key).length ≤ 1 → sameKmerGaps (occurrences seq k key) = [])
    ∧ (sameKmerGaps (occurrences seq k key)).length = (occurrences seq k key).length - 1
    ∧ (∀ i, i + 1 < (occurrences seq k key).length →
        (sameKmerGaps (occurrences seq k key)).getD i 0
          = (occurrences seq k key).getD (i + 1) 0 - (occurrences seq k key).getD i 0)
    ∧ occurrences seqATG 3 (pack [Sym.A, Sym.T, Sym.G]) = [0, 3, 6]
    ∧ sameKmerGaps (occurrences seqATG 3 (pack [Sym.A, Sym.T, Sym.G])) = [3, 3]
    ∧ summarize (sameKmerGaps (occurrences seqATG 3 (pack [Sym.A, Sym.T, Sym.G])))
        = ⟨2, 3, 0⟩
    ∧ Real.sqrt
        ((summarize (sameKmerGaps (occurrences seqATG 3 (pack [Sym.A, Sym.T, Sym.G])))).variance : ℝ)
        = 0 := by
  have hocc : occurrences seqATG 3 (pack [Sym.A, Sym.T, Sym.G]) = [0, 3, 6] := by decide
  have hgaps : sameKmerGaps (occurrences seqATG 3 (pack [Sym.A, Sym.T, Sym.G])) = [3, 3] := by
    rw [hocc]
    rfl
  have hsum : summarize (sameKmerGaps (occurrences seqATG 3 (pack [Sym.A, Sym.T, Sym.G])))
      = ⟨2, 3, 0⟩ := by
    rw [hgaps]
    simp [summarize]
    norm_num
  refine ⟨?_, sameKmerGaps_length _, sameKmerGaps_getD _, hocc, hgaps, hsum, ?_⟩
  · intro hle
    have hlen := sameKmerGaps_length (occurrences seq k key)
    have hz : (sameKmerGaps (occurrences seq k key)).length = 0 := by omega
    exact List.eq_nil_of_length_eq_zero hz
  · rw [hsum]
    simp

/-- Witness for C1: the 0-occurrence key 0 ("AAA") yields no gaps, and the
first gap of "ATG" (key 14) in "ATGATGATG" is `pos[1] − pos[0]`. -/
theorem sameKmer_return_times_witness :
    (occurrences seqATG 3 0).length ≤ 1
    ∧ sameKmerGaps (occurrences seqATG 3 0) = []
    ∧ 0 + 1 < (occurrences seqATG 3 14).length
    ∧ (sameKmerGaps (occurrences seqATG 3 14)).getD 0 0
        = (occurrences seqATG 3 14).getD 1 0 - (occurrences seqATG 3 14).getD 0 0 :=
  ⟨by decide, (sameKmer_return_times seqATG 3 0).1 (by decide), by decide,
    (sameKmer_return_times seqATG 3 14).2.2.1 0 (by decide)⟩

/-! ### Pairwise extractor lemmas -/

lemma occurrences_sorted (seq : List Sym) (k key : Nat) :
    (occurrences seq k key).Pairwise (· < ·) :=
  (List.pairwise_lt_range _).sublist (List.filter_sublist _)

lemma find?_lt_least {l : List Nat} (hl : l.Pairwise (· < ·)) {p q : Nat}
    (h : l.find? (fun x => p < x) = some q) :
    q ∈ l ∧ p < q ∧ ∀ r ∈ l, p < r → q ≤ r := by
  induction l with
  | nil => simp at h
  | cons x t ih =>
    by_cases hx : p < x
    · rw [List.find?_cons_of_pos _ (by simpa using hx)] at h
      have hxq : x = q := by simpa using h
      subst hxq
      refine ⟨List.mem_cons_self _ _, hx, ?_⟩
      intro r hr _
      rcases List.mem_cons.mp hr with rfl | hr2
      · exact le_refl _
      · exact le_of_lt ((List.pairwise_cons.mp hl).1 r hr2)
    · rw [List.find?_cons_of_neg _ (by simpa using hx)] at h
      obtain ⟨hq, hpq, hmin⟩ := ih (List.pairwise_cons.mp hl).2 h
      refine ⟨List.mem_cons_of_mem _ hq, hpq, ?_⟩
      intro r hr hpr
      rcases List.mem_cons.mp hr with rfl | hr2
      · exact absurd hpr hx
      · exact hmin r hr2 hpr

lemma find?_lt_none {l : List Nat} {p : Nat}
    (h : l.find? (fun x => p < x) = none) :
    ∀ r ∈ l, ¬ p < r := by
  intro r hr
  have := List.find?_eq_none.mp h r hr
  simpa using this

/-- C2: for every ordered pair (A, B) of k-mer keys (including A = B) and every
occurrence `p` of A, the pairwise extractor emits `q − p` where `q` is the
smallest occurrence of B with `q > p`, and emits no sample for `p` when no
such `q` exists; for "ATAT" with k = 1 the pair (A,T) yields [1, 1] and the
pair (T,A) yields [1] with count 1 (the T at position 3 contributes nothing). -/
theorem pairwise_return_times (seq : List Sym) (k a b : Nat) :
    (∀ p q, (occurrences seq k b).find? (fun x => p < x) = some q →
        q ∈ occurrences seq k b ∧ p < q
          ∧ ∀ r ∈ occurrences seq k b, p < r → q ≤ r)
    ∧ (∀ p, (occurrences seq k b).find? (fun x => p < x) = none →
        ∀ r ∈ occurrences seq k b, ¬ p < r)
    ∧ pairwiseGaps (occurrences seq k a) (occurrences seq k b)
        = (occurrences seq k a).filterMap
            (fun p => ((occurrences seq k b).find? (fun x => p < x)).map (fun q => q - p))
    ∧ occurrences seqATAT 1 (pack [Sym.A]) = [0, 2]
    ∧ occurrences seqATAT 1 (pack [Sym.T]) = [1, 3]
    ∧ pairwiseGaps (occurrences seqATAT 1 (pack [Sym.A]))
        (occurrences seqATAT 1 (pack [Sym.T])) = [1, 1]
    ∧ pairwiseGaps (occurrences seqATAT 1 (pack [Sym.T]))
        (occurrences seqATAT 1 (pack [Sym.A])) = [1]
    ∧ (summarize (pairwiseGaps (occurrences seqATAT 1 (pack [Sym.T]))
        (occurrences seqATAT 1 (pack [Sym.A])))).sample_count = 1 :=
  ⟨fun _ _ h => find?_lt_least (occurrences_sorted seq k b) h,
    fun _ h => find?_lt_none h, rfl,
    by decide, by decide, by decide, by decide, by decide⟩

/-- Witness for C2: in "ATAT" with k = 1, from the occurrence p = 1 of T the
nearest following occurrence of A (key 0) found by the extractor is q = 2. -/
theorem pairwise_return_times_witness :
    (occurrences seqATAT 1 0).find? (fun x => 1 < x) = some 2
    ∧ 2 ∈ occurrences seqATAT 1 0
    ∧ 1 < 2 :=
  ⟨by decide, ((pairwise_return_times seqATAT 1 3 0).1 1 2 (by decide)).1,
    ((pairwise_return_times seqATAT 1 3 0).1 1 2 (by decide)).2.1⟩

/-! ### Statistics aggregator lemmas -/

lemma summarize_sample_count (gaps : List Nat) :
    (summarize gaps).sample_count = gaps.length := by
  cases gaps <;> rfl

lemma summarize_cons (a : Nat) (t : List Nat) :
    summarize (a :: t)
      = ⟨t.length + 1,
          (((a :: t).map (fun x => (x : ℚ))).sum) / ((t.length : ℚ) + 1),
          (((a :: t).map (fun x =>
              ((x : ℚ) - (((a :: t).map (fun y => (y : ℚ))).sum) / ((t.length : ℚ) + 1)) ^ 2)).sum)
            / ((t.length : ℚ) + 1)⟩ := rfl

/-- C6: `summarize` is a total function on sequences of non-negative integers
with no failure modes: the empty sequence returns the sentinel (0, 0, 0); one
sample returns standard deviation 0; for count ≥ 1 it returns the arithmetic
mean and the population standard deviation (square root of the population
variance, dividing by count and not count − 1). -/
theorem summarize_total_spec (gaps : List Nat) :
    summarize [] = ⟨0, 0, 0⟩
    ∧ Real.sqrt ((summarize []).variance : ℝ) = 0
    ∧ (summarize gaps).sample_count = gaps.length
    ∧ (gaps.length = 1 →
        (summarize gaps).variance = 0 ∧ Real.sqrt ((summarize gaps).variance : ℝ) = 0)
    ∧ (1 ≤ gaps.length →
        (summarize gaps).mean = ((gaps.map (fun x => (x : ℚ))).sum) / (gaps.length : ℚ)
        ∧ (summarize gaps).variance
            = ((gaps.map (fun x => ((x : ℚ) - (summarize gaps).mean) ^ 2)).sum)
                / (gaps.length : ℚ)) := by
  refine ⟨rfl, by simp [summarize], summarize_sample_count gaps, ?_, ?_⟩
  · intro h
    obtain ⟨x, rfl⟩ := List.length_eq_one.mp h
    have hv : (summarize [x]).variance = 0 := by simp [summarize]
    exact ⟨hv, by rw [hv]; simp⟩
  · intro h
    cases gaps with
    | nil => simp at h
    | cons a t =>
      constructor
      · rw [summarize_cons]
        norm_cast
      · rw [summarize_cons]
        norm_cast

/-- Witness for C6 at gaps = [7]: one sample, standard deviation 0, mean 7. -/
theorem summarize_total_spec_witness :
    [7].length = 1 ∧ (summarize [7]).variance = 0
    ∧ 1 ≤ [7].length
    ∧ (summarize [7]).mean = (([7].map (fun x => (x : ℚ))).sum) / (([7].length : Nat) : ℚ) :=
  ⟨by decide, ((summarize_total_spec [7]).2.2.2.1 (by decide)).1, by decide,
    ((summarize_total_spec [7]).2.2.2.2 (by decide)).1⟩

/-! ### Orchestrator: the SameKmer result -/

/-- C3: for every valid k and every sequence, `compute` with the SameKmer
variant succeeds with exactly `4^k` entries, one per k-mer key, each key
appearing exactly once (the projection to keys is the ascending enumeration),
each count ≥ 0; zero-occurrence k-mers are present with the zero-sample record
(0, 0, 0) — in particular for "AAAA" with k = 2 the entry of "GC". -/
theorem compute_sameKmer_result (seq : List Sym) (k : Nat)
    (h1 : 1 ≤ k) (h2 : k ≤ platformMaxK) :
    compute seq k .SameKmer = .ok (sameKmerEntries seq k)
    ∧ (sameKmerEntries seq k).length = 4 ^ k
    ∧ (sameKmerEntries seq k).map Prod.fst = (List.range (4 ^ k)).map KmerId.single
    ∧ (∀ key, key < 4 ^ k → occurrences seq k key = [] →
        (KmerId.single key, (⟨0, 0, 0⟩ : Statistics)) ∈ sameKmerEntries seq k)
    ∧ (∀ e ∈ sameKmerEntries seq k, 0 ≤ e.2.sample_count)
    ∧ (KmerId.single (pack [Sym.G, Sym.C]), (⟨0, 0, 0⟩ : Statistics))
        ∈ sameKmerEntries seqAAAA 2 := by
  refine ⟨by simp [compute, h1, h2], by simp [sameKmerEntries, enumerate_all],
    by simp [sameKmerEntries, enumerate_all, List.map_map, Function.comp],
    ?_, fun e _ => Nat.zero_le _, ?_⟩
  · intro key hk hocc
    refine List.mem_map.mpr ⟨key, ?_, ?_⟩
    · simpa [enumerate_all, List.mem_range] using hk
    · simp only [hocc]
      rfl
  · have hocc : occurrences seqAAAA 2 (pack [Sym.G, Sym.C]) = [] := by decide
    refine List.mem_map.mpr ⟨pack [Sym.G, Sym.C], by decide, ?_⟩
    simp only [hocc]
    rfl

/-- Witness for C3 at sequence "AAAA", k = 2. -/
theorem compute_sameKmer_result_witness :
    1 ≤ 2 ∧ 2 ≤ platformMaxK
    ∧ compute seqAAAA 2 .SameKmer = .ok (sameKmerEntries seqAAAA 2)
    ∧ (sameKmerEntries seqAAAA 2).length = 4 ^ 2
    ∧ (KmerId.single (pack [Sym.G, Sym.C]), (⟨0, 0, 0⟩ : Statistics))
        ∈ sameKmerEntries seqAAAA 2 :=
  ⟨by decide, by decide,
    (compute_sameKmer_result seqAAAA 2 (by decide) (by decide)).1,
    (compute_sameKmer_result seqAAAA 2 (by decide) (by decide)).2.1,
    (compute_sameKmer_result seqAAAA 2 (by decide) (by decide)).2.2.2.2.2⟩

/-! ### Orchestrator: determinism, iteration order, k validation -/

lemma rtdIds_sorted (k : Nat) (v : Variant) : (rtdIds k v).Pairwise idAsc := by
  cases v with
  | SameKmer =>
    exact List.pairwise_map.mpr ((List.pairwise_lt_range _).imp (fun h => h))
  | ReverseComplement =>
    exact List.pairwise_map.mpr ((List.pairwise_lt_range _).imp (fun h => h))
  | Pairwise =>
    show ((enumerate_all k).flatMap fun a => (enumerate_all k).map (KmerId.pair a)).Pairwise idAsc
    rw [List.flatMap_def]
    apply List.pairwise_flatten.mpr
    constructor
    · intro l hl
      obtain ⟨a, _, rfl⟩ := List.mem_map.mp hl
      exact List.pairwise_map.mpr ((List.pairwise_lt_range _).imp (fun h => Or.inr ⟨rfl, h⟩))
    · apply List.pairwise_map.mpr
      apply (List.pairwise_lt_range _).imp
      intro a b hab
      intro x hx y hy
      obtain ⟨xb, _, rfl⟩ := List.mem_map.mp hx
      obtain ⟨yb, _, rfl⟩ := List.mem_map.mp hy
      exact Or.inl hab

/-- C7: `compute` is deterministic — two calls on identical inputs yield the
identical Result (`compute` is a pure function, so the two calls are one and
the same value) — and the iteration order of every successful Result is the
ascending numeric key order (lexicographic for ordered pairs). -/
theorem compute_deterministic_sorted (seq : List Sym) (k : Nat) (v : Variant)
    (res : List (KmerId × Statistics)) (h : compute seq k v = .ok res) :
    compute seq k v = compute seq k v
    ∧ res.map Prod.fst = rtdIds k v
    ∧ (rtdIds k v).Pairwise idAsc := by
  refine ⟨rfl, ?_, rtdIds_sorted k v⟩
  unfold compute at h
  by_cases hk : 1 ≤ k ∧ k ≤ platformMaxK
  · rw [if_pos hk] at h
    injection h with hres
    rw [← hres]
    cases v with
    | SameKmer => simp [sameKmerEntries, rtdIds, List.map_map, Function.comp]
    | ReverseComplement =>
      simp [reverseComplementEntries, rtdIds, List.map_map, Function.comp]
    | Pairwise =>
      simp only [pairwiseEntries, rtdIds, List.map_flatMap, List.map_map]
      rfl
  · rw [if_neg hk] at h
    exact absurd h (by simp)

/-- Witness for C7 at the empty sequence, k = 1, SameKmer. -/
theorem compute_deterministic_sorted_witness :
    compute [] 1 .SameKmer = .ok (sameKmerEntries [] 1)
    ∧ (sameKmerEntries [] 1).map Prod.fst = rtdIds 1 .SameKmer
    ∧ (rtdIds 1 .SameKmer).Pairwise idAsc :=
  ⟨rfl,
    (compute_deterministic_sorted [] 1 .SameKmer (sameKmerEntries [] 1) rfl).2.1,
    (compute_deterministic_sorted [] 1 .SameKmer (sameKmerEntries [] 1) rfl).2.2⟩

/-- C8: for every k outside [1, platform max], every sequence and every
variant, `compute` fails with `InvalidK` and returns no partial result; for k
inside the range the `InvalidK` branch is never taken and a Result is
returned. -/
theorem compute_invalidK_spec (seq : List Sym) (k : Nat) (v : Variant) :
    (¬(1 ≤ k ∧ k ≤ platformMaxK) → compute seq k v = .error .InvalidK)
    ∧ ((1 ≤ k ∧ k ≤ platformMaxK) → compute seq k v ≠ .error .InvalidK)
    ∧ ((1 ≤ k ∧ k ≤ platformMaxK) → ∃ res, compute seq k v = .ok res) := by
  refine ⟨fun h => by simp [compute, h], ?_, ?_⟩
  · intro h
    unfold compute
    rw [if_pos h]
    simp
  · intro h
    refine ⟨(match v with
      | .SameKmer => sameKmerEntries seq k
      | .ReverseComplement => reverseComplementEntries seq k
      | .Pairwise => pairwiseEntries seq k), ?_⟩
    unfold compute
    rw [if_pos h]

/-- Witness for C8: k = 0 and k = 32 are rejected with `InvalidK`;
k = 1 is not. -/
theorem compute_invalidK_spec_witness :
    compute [] 0 .SameKmer = .error .InvalidK
    ∧ compute [] 32 .Pairwise = .error .InvalidK
    ∧ compute [] 1 .SameKmer ≠ .error .InvalidK :=
  ⟨(compute_invalidK_spec [] 0 .SameKmer).1 (by decide),
    (compute_invalidK_spec [] 32 .Pairwise).1 (by decide),
    (compute_invalidK_spec [] 1 .SameKmer).2.1 (by decide)⟩

/-! ### CLI wrapper claims -/

lemma docoptParse_exclusive (tokens : List String) (args : ParsedArgs)
    (h : docoptParse tokens = some args) :
    ¬(args.reverseComplement = true ∧ args.pairwise = true) := by
  simp only [docoptParse] at h
  split at h
  · split at h
    · exact absurd h (by simp)
    · next hboth =>
      split at h
      · injection h with h2
        subst h2
        simpa using hboth
      · injection h with h2
        subst h2
        simpa using hboth
      · exact absurd h (by simp)
  · exact absurd h (by simp)

lemma wrappers_agree (tokens : List String) :
    librtd_py_cli_wrapper tokens = cli_wrapper tokens := rfl

/-- C9: the CLI wrapper accepts a k argument, an input path, an optional
output path defaulting to the standard output stream, and at most one of the
two mutually exclusive mode flags `--reverse-complement` / `--pairwise`
(absence of both meaning SameKmer), forwarding each flag's presence as a
boolean and the parsed integer k to the core entry point; the second entry
point `_cli_wrapper` behaves identically. -/
theorem cli_wrapper_contract (tokens : List String) (call : MainCall)
    (h : cli_wrapper tokens = some call) :
    ¬(call.reverseComplement = true ∧ call.pairwise = true)
    ∧ (∃ args, docoptParse tokens = some args
        ∧ pyInt? args.kArg = some call.k
        ∧ call.input = args.inputArg
        ∧ call.output = args.outputArg.getD "stdout"
        ∧ call.reverseComplement = args.reverseComplement
        ∧ call.pairwise = args.pairwise)
    ∧ librtd_py_cli_wrapper tokens = some call
    ∧ cli_wrapper ["3", "in.fasta"] = some ⟨3, "in.fasta", "stdout", false, false⟩
    ∧ cli_wrapper ["3", "in.fasta", "out.jsonl", "--pairwise"]
        = some ⟨3, "in.fasta", "out.jsonl", false, true⟩
    ∧ cli_wrapper ["3", "in.fasta", "--reverse-complement"]
        = some ⟨3, "in.fasta", "stdout", true, false⟩
    ∧ cli_wrapper ["3", "in.fasta", "--reverse-complement", "--pairwise"] = none := by
  unfold cli_wrapper at h
  cases hd : docoptParse tokens with
  | none => rw [hd] at h; simp at h
  | some args =>
    rw [hd, Option.some_bind] at h
    cases hki : pyInt? args.kArg with
    | none => rw [hki] at h; simp at h
    | some kv =>
      rw [hki, Option.map_some'] at h
      injection h with hcall
      subst hcall
      refine ⟨by simpa using docoptParse_exclusive tokens args hd,
        ⟨args, rfl, hki, rfl, rfl, rfl, rfl⟩, ?_,
        by decide, by decide, by decide, by decide⟩
      unfold librtd_py_cli_wrapper
      rw [hd, Option.some_bind, hki, Option.map_some']

/-- Witness for C9 at the invocation `rtd 2 g.fasta --pairwise`. -/
theorem cli_wrapper_contract_witness :
    cli_wrapper ["2", "g.fasta", "--pairwise"]
        = some ⟨2, "g.fasta", "stdout", false, true⟩
    ∧ ¬((⟨2, "g.fasta", "stdout", false, true⟩ : MainCall).reverseComplement = true
        ∧ (⟨2, "g.fasta", "stdout", false, true⟩ : MainCall).pairwise = true)
    ∧ librtd_py_cli_wrapper ["2", "g.fasta", "--pairwise"]
        = some ⟨2, "g.fasta", "stdout", false, true⟩ :=
  ⟨by decide,
    (cli_wrapper_contract ["2", "g.fasta", "--pairwise"] _ (by decide)).1,
    (cli_wrapper_contract ["2", "g.fasta", "--pairwise"] _ (by decide)).2.2.1⟩

/-- C10: in both CLI entry points, omitting the optional `<output>` argument
makes the wrapper call `main` with output equal to the literal string
"stdout", so an invocation explicitly passing the output path "stdout" is
indistinguishable from one omitting the argument, and a file literally named
"stdout" cannot be selected as an output target through the CLI. -/
theorem cli_output_stdout_indistinguishable (kStr input : String)
    (hk : isOptionToken kStr = false) (hi : isOptionToken input = false) :
    cli_wrapper [kStr, input] = cli_wrapper [kStr, input, "stdout"]
    ∧ librtd_py_cli_wrapper [kStr, input] = librtd_py_cli_wrapper [kStr, input, "stdout"]
    ∧ (∀ call, cli_wrapper [kStr, input] = some call → call.output = "stdout")
    ∧ (∀ call, cli_wrapper [kStr, input, "stdout"] = some call → call.output = "stdout") := by
  have hstd : isOptionToken "stdout" = false := by decide
  have hp1 : docoptParse [kStr, input] = some ⟨kStr, input, none, false, false⟩ := by
    simp [docoptParse, List.filter_cons, hk, hi]
  have hp2 : docoptParse [kStr, input, "stdout"]
      = some ⟨kStr, input, some "stdout", false, false⟩ := by
    simp [docoptParse, List.filter_cons, hk, hi, hstd]
  have hmain : cli_wrapper [kStr, input] = cli_wrapper [kStr, input, "stdout"] := by
    unfold cli_wrapper
    rw [hp1, hp2]
    simp
  refine ⟨hmain, by rw [wrappers_agree, wrappers_agree, hmain], ?_, ?_⟩
  · intro call hcall
    unfold cli_wrapper at hcall
    rw [hp1, Option.some_bind] at hcall
    cases hki : pyInt? kStr with
    | none => rw [hki] at hcall; simp at hcall
    | some kv =>
      rw [hki, Option.map_some'] at hcall
      injection hcall with hc
      rw [← hc]
      rfl
  · intro call hcall
    unfold cli_wrapper at hcall
    rw [hp2, Option.some_bind] at hcall
    cases hki : pyInt? kStr with
    | none => rw [hki] at hcall; simp at hcall
    | some kv =>
      rw [hki, Option.map_some'] at hcall
      injection hcall with hc
      rw [← hc]
      rfl

/-- Witness for C10 at `rtd 3 f.fasta` versus `rtd 3 f.fasta stdout`. -/
theorem cli_output_stdout_indistinguishable_witness :
    isOptionToken "3" = false ∧ isOptionToken "f.fasta" = false
    ∧ cli_wrapper ["3", "f.fasta"] = cli_wrapper ["3", "f.fasta", "stdout"]
    ∧ librtd_py_cli_wrapper ["3", "f.fasta"]
        = librtd_py_cli_wrapper ["3", "f.fasta", "stdout"] :=
  ⟨by decide, by decide,
    (cli_output_stdout_indistinguishable "3" "f.fasta" (by decide) (by decide)).1,
    (cli_output_stdout_indistinguishable "3" "f.fasta" (by decide) (by decide)).2.1⟩

end Librtd
